import Mathlib

/-!
Verification development for the article-recommendation project.

The repository ships a Vue frontend (stores, views, and an axios API client);
the Citation Graph Analytics and Recommendation Engine that the API client
calls is specified in the project documentation but its implementation is not
part of the checked-in sources.  Definitions below that embed that engine are
therefore modelled from the specification text (each such definition carries a
doc comment starting with "Modelled from the spec:"), while the definitions
for the frontend user store are translated directly from
src/frontend/src/stores/user.ts.

Numbers: scores are rationals (ℚ); ids are naturals; years are integers.
-/

namespace ArticleRec

/-- Clamp a rational into the interval [0, 10]; used to normalise score
components so every component of the truth-value sum lies in range. -/
def clamp10 (x : ℚ) : ℚ := max 0 (min 10 x)

/-- Fuel-indexed binary logarithm on naturals (structural recursion so that
concrete values reduce in the kernel). -/
def log2fuel : Nat → Nat → Nat
  | 0, _ => 0
  | f + 1, n => if 2 ≤ n then log2fuel f (n / 2) + 1 else 0

/-- Binary logarithm used for log-scaling citation counts. -/
def intLog2 (n : Nat) : Nat := log2fuel n n

/-- Modelled from the spec: a paper record of the Graph Store (identifier,
title, keyword set, publication year, venue-impact proxy set by ingestion,
raw citation count, ordered author list).  Citation edges live in the store,
not in the paper record. -/
structure Paper where
  pid : Nat
  title : String
  keywords : List String
  year : Int
  venueWeight : ℚ
  rawCitations : Nat
  authors : List Nat
deriving Repr, DecidableEq

/-- Modelled from the spec: the Graph Store holding papers and the directed
citation edges (source cites target, unique per ordered pair, no self-loops),
together with the set of paper ids whose cached truth-value score is stale. -/
structure GraphStore where
  papers : List Paper
  citationEdges : List (Nat × Nat)
  staleIds : List Nat
deriving Repr, DecidableEq

/-- Modelled from the spec: O(1)-style identifier lookup, `getPaper`. -/
def findPaper (s : GraphStore) (pid : Nat) : Option Paper :=
  s.papers.find? (fun p => p.pid == pid)

/-- Modelled from the spec: `outgoingCitations(paperId)` — ids of the papers
that `pid` cites, in edge insertion order. -/
def outgoingCitations (s : GraphStore) (pid : Nat) : List Nat :=
  (s.citationEdges.filter (fun e => e.1 == pid)).map (fun e => e.2)

/-- Modelled from the spec: `incomingCitations(paperId)` — ids of the papers
that cite `pid`, in edge insertion order. -/
def incomingCitations (s : GraphStore) (pid : Nat) : List Nat :=
  (s.citationEdges.filter (fun e => e.2 == pid)).map (fun e => e.1)

/-- Modelled from the spec: list of all paper ids present in the store. -/
def paperIds (s : GraphStore) : List Nat := s.papers.map (fun p => p.pid)

/-- Modelled from the spec: `addCitationEdge(fromId, toId)` — idempotent,
adding an existing edge is a no-op, self-loops are rejected, and a genuine
insertion marks both endpoints' cached scores stale. -/
def addCitationEdge (s : GraphStore) (a b : Nat) : GraphStore :=
  if a = b ∨ (a, b) ∈ s.citationEdges then s
  else
    { s with
      citationEdges := s.citationEdges ++ [(a, b)],
      staleIds := (s.staleIds.insert a).insert b }

/-- Modelled from the spec: a derived metric — the citation count of a paper
as seen by the store (number of incoming citation edges). -/
def citationCountOf (s : GraphStore) (pid : Nat) : Nat :=
  (incomingCitations s pid).length

/-- Modelled from the spec: scoring configuration (citation weight, venue
weight, centrality weight, recency half-life), provided at engine
construction.  Weights are in [0,1]; the three combination weights are
renormalised to sum to 1 before use; the half-life is the base of the
recency decay applied to the citation term only. -/
structure ScoringConfig where
  citationWeight : ℚ
  venueWeight : ℚ
  centralityWeight : ℚ
  recencyHalfLife : ℚ
deriving Repr, DecidableEq

/-- Modelled from the spec: configuration validity — all options in [0,1]
and the combination weights summable to a positive total (otherwise
`ConfigurationError`, fatal at construction). -/
def ScoringConfig.Valid (c : ScoringConfig) : Prop :=
  0 ≤ c.citationWeight ∧ c.citationWeight ≤ 1 ∧
  0 ≤ c.venueWeight ∧ c.venueWeight ≤ 1 ∧
  0 ≤ c.centralityWeight ∧ c.centralityWeight ≤ 1 ∧
  0 ≤ c.recencyHalfLife ∧ c.recencyHalfLife ≤ 1 ∧
  0 < c.citationWeight + c.venueWeight + c.centralityWeight

instance (c : ScoringConfig) : Decidable c.Valid := by
  unfold ScoringConfig.Valid
  infer_instance

/-- Modelled from the spec: largest raw citation count within a paper's
publication-year cohort. -/
def cohortMaxCitations (s : GraphStore) (year : Int) : Nat :=
  ((s.papers.filter (fun q => q.year == year)).map (fun q => q.rawCitations)).foldr max 0

/-- Modelled from the spec: normalised citation count, log-scaled against the
publication-year cohort, clamped into [0,10]. -/
def citationNorm (s : GraphStore) (p : Paper) : ℚ :=
  if cohortMaxCitations s p.year = 0 then 0
  else clamp10 (10 * (intLog2 (p.rawCitations + 1) : ℚ)
    / (intLog2 (cohortMaxCitations s p.year + 1) : ℚ))

/-- Modelled from the spec: recency decay factor, applied only to the
citation-count term; the configured half-life is the decay base per year of
age. -/
def recencyFactor (cfg : ScoringConfig) (now : Int) (p : Paper) : ℚ :=
  cfg.recencyHalfLife ^ (now - p.year).toNat

/-- Modelled from the spec: raw eigenvector-style centrality over the
incoming-citation subgraph at bounded depth 2 — citing papers that are
themselves highly cited contribute more. -/
def centralityRaw (s : GraphStore) (p : Paper) : Nat :=
  ((incomingCitations s p.pid).map
    (fun c => 1 + (incomingCitations s c).length)).foldr (· + ·) 0

/-- Modelled from the spec: centrality component, log-scaled and clamped
into [0,10]. -/
def centralityNorm (s : GraphStore) (p : Paper) : ℚ :=
  clamp10 (intLog2 (centralityRaw s p + 1) : ℚ)

/-- Modelled from the spec: venue-impact component — the trusted ingestion
weight, clamped into the score range. -/
def venueNorm (p : Paper) : ℚ := clamp10 p.venueWeight

/-- Modelled from the spec: the fixed weighted sum of the three components,
with the combination weights renormalised to sum to 1 (division by their
total). -/
def fullScore (cfg : ScoringConfig) (s : GraphStore) (now : Int) (p : Paper) : ℚ :=
  let c1 := clamp10 (recencyFactor cfg now p * citationNorm s p)
  let total := cfg.citationWeight + cfg.venueWeight + cfg.centralityWeight
  (cfg.citationWeight * c1 + cfg.venueWeight * venueNorm p
    + cfg.centralityWeight * centralityNorm s p) / total

/-- Modelled from the spec: the error taxonomy of the engine. -/
inductive EngineError
  | notFound
  | insufficientData
  | configurationInvalid
deriving Repr, DecidableEq

instance {ε α : Type} [DecidableEq ε] [DecidableEq α] :
    DecidableEq (Except ε α) := fun a b =>
  match a, b with
  | .ok x, .ok y => decidable_of_iff (x = y) (by simp)
  | .error x, .error y => decidable_of_iff (x = y) (by simp)
  | .ok _, .error _ => isFalse (by simp)
  | .error _, .ok _ => isFalse (by simp)

/-- Modelled from the spec: the result record of `getTruthValue`
(score, confidence, asOf). -/
structure TruthValue where
  score : ℚ
  confidence : String
  asOf : Int
deriving Repr, DecidableEq

/-- Modelled from the spec: a paper is data-sparse when it has zero outgoing
edges, zero incoming edges and zero raw citation count. -/
def isSparse (s : GraphStore) (p : Paper) : Bool :=
  (outgoingCitations s p.pid).isEmpty && (incomingCitations s p.pid).isEmpty
    && (p.rawCitations == 0)

/-- Modelled from the spec: the strict scorer, which fails with
`InsufficientDataError` on a data-sparse paper. -/
def scoreStrict (cfg : ScoringConfig) (s : GraphStore) (now : Int) (p : Paper) :
    Except EngineError TruthValue :=
  if isSparse s p then .error .insufficientData
  else .ok { score := fullScore cfg s now p, confidence := "high", asOf := now }

/-- Modelled from the spec: metadata-only baseline score used when the strict
scorer reports insufficient data. -/
def baselineScore (p : Paper) : ℚ := venueNorm p

/-- Modelled from the spec: `getTruthValue(paperId)` — `NotFoundError` for an
unknown id; an `InsufficientDataError` from the strict scorer is recovered
locally into a low-confidence metadata-only baseline and never surfaced. -/
def getTruthValue (cfg : ScoringConfig) (s : GraphStore) (now : Int) (pid : Nat) :
    Except EngineError TruthValue :=
  match findPaper s pid with
  | none => .error .notFound
  | some p =>
    match scoreStrict cfg s now p with
    | .error _ => .ok { score := baselineScore p, confidence := "low", asOf := now }
    | .ok v => .ok v

/-- Modelled from the spec: the deterministic ranking relation used throughout
the engine — primary key descending, secondary key descending, ties broken by
id ascending. -/
def rankLex {α : Type} (f g : α → ℚ) (idOf : α → Nat) (a b : α) : Prop :=
  f b < f a ∨ (f a = f b ∧ (g b < g a ∨ (g a = g b ∧ idOf a ≤ idOf b)))

instance {α : Type} (f g : α → ℚ) (idOf : α → Nat) :
    DecidableRel (rankLex f g idOf) := fun a b => by
  unfold rankLex
  infer_instance

instance {α : Type} (f g : α → ℚ) (idOf : α → Nat) :
    IsTotal α (rankLex f g idOf) := by
  refine ⟨fun a b => ?_⟩
  unfold rankLex
  rcases lt_trichotomy (f a) (f b) with h | h | h
  · exact Or.inr (Or.inl h)
  · rcases lt_trichotomy (g a) (g b) with h2 | h2 | h2
    · exact Or.inr (Or.inr ⟨h.symm, Or.inl h2⟩)
    · rcases Nat.le_total (idOf a) (idOf b) with h3 | h3
      · exact Or.inl (Or.inr ⟨h, Or.inr ⟨h2, h3⟩⟩)
      · exact Or.inr (Or.inr ⟨h.symm, Or.inr ⟨h2.symm, h3⟩⟩)
    · exact Or.inl (Or.inr ⟨h, Or.inl h2⟩)
  · exact Or.inl (Or.inl h)

instance {α : Type} (f g : α → ℚ) (idOf : α → Nat) :
    IsTrans α (rankLex f g idOf) := by
  refine ⟨fun a b c hab hbc => ?_⟩
  unfold rankLex at *
  rcases hab with h1 | ⟨h1, h2⟩
  · rcases hbc with h3 | ⟨h3, _⟩
    · exact Or.inl (h3.trans h1)
    · exact Or.inl (h3 ▸ h1)
  · rcases hbc with h3 | ⟨h3, h4⟩
    · exact Or.inl (h1 ▸ h3)
    · refine Or.inr ⟨h1.trans h3, ?_⟩
      rcases h2 with h2 | ⟨h2, h5⟩
      · rcases h4 with h4 | ⟨h4, _⟩
        · exact Or.inl (h4.trans h2)
        · exact Or.inl (h4 ▸ h2)
      · rcases h4 with h4 | ⟨h4, h6⟩
        · exact Or.inl (h2 ▸ h4)
        · exact Or.inr ⟨h2.trans h4, h5.trans h6⟩

/-- Modelled from the spec: the truth-value score of an id as used for
ranking (an id that cannot be scored ranks at zero). -/
def truthScoreOf (cfg : ScoringConfig) (s : GraphStore) (now : Int) (pid : Nat) : ℚ :=
  match getTruthValue cfg s now pid with
  | .ok tv => tv.score
  | .error _ => 0

/-- Modelled from the spec: `getReferences(paperId)` — the one-hop outgoing
citations, citation-count-descending (ties by id for determinism),
`NotFoundError` for an unknown id. -/
def getReferences (s : GraphStore) (pid : Nat) : Except EngineError (List Nat) :=
  match findPaper s pid with
  | none => .error .notFound
  | some _ =>
    .ok ((outgoingCitations s pid).insertionSort
      (rankLex (fun i => (citationCountOf s i : ℚ)) (fun _ => 0) id))

/-- Modelled from the spec: `getCitations(paperId)` — the one-hop incoming
citations, same ordering as `getReferences`, `NotFoundError` for an unknown
id. -/
def getCitations (s : GraphStore) (pid : Nat) : Except EngineError (List Nat) :=
  match findPaper s pid with
  | none => .error .notFound
  | some _ =>
    .ok ((incomingCitations s pid).insertionSort
      (rankLex (fun i => (citationCountOf s i : ℚ)) (fun _ => 0) id))

/-- Modelled from the spec: number of distinct shared keywords of two
papers. -/
def keywordOverlap (p q : Paper) : Nat :=
  ((p.keywords.inter q.keywords).dedup).length

/-- Modelled from the spec: number of distinct common citers of two papers
(their co-citation overlap). -/
def coCitationOverlap (s : GraphStore) (p q : Paper) : Nat :=
  (((incomingCitations s p.pid).inter (incomingCitations s q.pid)).dedup).length

/-- Modelled from the spec: whether two papers share an author. -/
def sharesAuthor (p q : Paper) : Bool :=
  decide (p.authors.inter q.authors ≠ [])

/-- Modelled from the spec: weighted Jaccard-like similarity over keyword
overlap, co-citation overlap and a same-author bonus (the exact coefficients
are left open by the documentation; a simple instantiation is used). -/
def simScore (s : GraphStore) (p q : Paper) : ℚ :=
  let kwUnion := ((p.keywords.union q.keywords).dedup).length
  let kwSim : ℚ := if kwUnion = 0 then 0 else (keywordOverlap p q : ℚ) / (kwUnion : ℚ)
  let citUnion :=
    (((incomingCitations s p.pid).union (incomingCitations s q.pid)).dedup).length
  let coSim : ℚ :=
    if citUnion = 0 then 0 else (coCitationOverlap s p q : ℚ) / (citUnion : ℚ)
  kwSim + coSim + (if sharesAuthor p q then (1 : ℚ) / 2 else 0)

/-- Modelled from the spec: similar-paper candidacy — a different paper that
either shares at least one incoming citer or shares at least two keywords. -/
def isSimilarCandidate (s : GraphStore) (p q : Paper) : Bool :=
  (q.pid != p.pid)
    && (decide (1 ≤ coCitationOverlap s p q) || decide (2 ≤ keywordOverlap p q))

/-- Modelled from the spec: `getSimilar(paperId, k)` — candidates scored by
similarity, top-k (default 10) descending by similarity, ties broken by
truth-value score then by id; `NotFoundError` for an unknown id. -/
def getSimilar (cfg : ScoringConfig) (s : GraphStore) (now : Int) (pid : Nat)
    (k : Nat := 10) : Except EngineError (List Paper) :=
  match findPaper s pid with
  | none => .error .notFound
  | some p =>
    .ok (((s.papers.filter (fun q => isSimilarCandidate s p q)).insertionSort
      (rankLex (simScore s p) (fun q => truthScoreOf cfg s now q.pid)
        (fun q => q.pid))).take k)

/-- Modelled from the spec: neighbour enumeration for graph export — both
edge directions. -/
def neighborIds (s : GraphStore) (pid : Nat) : List Nat :=
  outgoingCitations s pid ++ incomingCitations s pid

/-- Modelled from the spec: the next BFS frontier — newly discovered known
nodes not yet in the visited set, in discovery order, each listed once. -/
def newFrontier (s : GraphStore) (frontier visited : List Nat) : List Nat :=
  ((frontier.flatMap (neighborIds s)).filter
    (fun n => decide (n ∈ paperIds s) && !(decide (n ∈ visited)))).dedup

/-- Modelled from the spec: bounded breadth-first expansion with a
visited-set keyed by id; each node is visited once, frontier order is
discovery order, and the depth argument bounds the recursion so the walk
terminates on cyclic graphs. -/
def bfsExpand (s : GraphStore) : Nat → List Nat → List Nat → List Nat
  | 0, _, visited => visited
  | d + 1, frontier, visited =>
    bfsExpand s d (newFrontier s frontier visited)
      (visited ++ newFrontier s frontier visited)

/-- Modelled from the spec: depth outside [0, 3] is clamped, not rejected
(hard cap 3). -/
def clampDepth (d : Nat) : Nat := min d 3

/-- Modelled from the spec: `getGraph(nodeId, depth)` — BFS export of the
node set reachable within the clamped depth (default 2), `NotFoundError` for
an unknown root id. -/
def getGraph (s : GraphStore) (pid : Nat) (depth : Nat := 2) :
    Except EngineError (List Nat) :=
  match findPaper s pid with
  | none => .error .notFound
  | some _ => .ok (bfsExpand s (clampDepth depth) [pid] [pid])

/-- Modelled from the spec: a user's signal set — bookmarks, followed
authors and the recency-ordered reading history. -/
structure UserSignals where
  bookmarks : List Nat
  follows : List Nat
  readingHistory : List (Nat × Int)
deriving Repr, DecidableEq

/-- Modelled from the spec: whether the signal set is empty. -/
def hasNoSignals (u : UserSignals) : Bool :=
  u.bookmarks.isEmpty && u.follows.isEmpty && u.readingHistory.isEmpty

/-- Modelled from the spec: the fixed taxonomy of recommendation reason
tags. -/
inductive RecReason
  | contentSimilarity
  | followedAuthor
  | citationPropagation
  | trending
deriving Repr, DecidableEq

/-- Modelled from the spec: one entry of a recommendation result list. -/
structure RecommendationResult where
  paperId : Nat
  relevance : ℚ
  reason : RecReason
deriving Repr, DecidableEq

/-- Modelled from the spec: papers from the last 12 months (year granularity)
sorted by truth-value score descending, ties by id ascending. -/
def trendingPapers (cfg : ScoringConfig) (s : GraphStore) (now : Int) : List Paper :=
  (s.papers.filter (fun p => decide (now - 1 ≤ p.year))).insertionSort
    (rankLex (fun p => truthScoreOf cfg s now p.pid) (fun _ => 0) (fun p => p.pid))

/-- Modelled from the spec: the trending fallback returned for an empty
signal set — top truth-value-scored recent papers, tagged `trending`. -/
def trendingFallback (cfg : ScoringConfig) (s : GraphStore) (now : Int)
    (limit : Nat) : List RecommendationResult :=
  ((trendingPapers cfg s now).take limit).map
    (fun p => ⟨p.pid, truthScoreOf cfg s now p.pid, RecReason.trending⟩)

/-- Modelled from the spec: monotone recency weight of the i-th most recent
history entry. -/
def historyWeight (i : Nat) : ℚ := 1 / ((i : ℚ) + 1)

/-- Modelled from the spec: content candidates — similar papers of each
history entry, weighted by similarity times the recency weight. -/
def contentCandidates (cfg : ScoringConfig) (s : GraphStore) (now : Int)
    (sig : UserSignals) : List (Nat × ℚ × RecReason) :=
  (sig.readingHistory.enum).flatMap (fun hi =>
    match findPaper s hi.2.1 with
    | none => []
    | some p =>
      match getSimilar cfg s now p.pid 10 with
      | .error _ => []
      | .ok l =>
        l.map (fun q =>
          (q.pid, simScore s p q * historyWeight hi.1, RecReason.contentSimilarity)))

/-- Modelled from the spec: followed-author candidates — recent papers
(two-year lookback) by followed authors, fixed weight. -/
def authorCandidates (s : GraphStore) (now : Int) (sig : UserSignals) :
    List (Nat × ℚ × RecReason) :=
  (s.papers.filter (fun p =>
      decide (now - 2 ≤ p.year)
        && p.authors.any (fun a => decide (a ∈ sig.follows)))).map
    (fun p => (p.pid, (1 : ℚ), RecReason.followedAuthor))

/-- Modelled from the spec: propagation candidates — papers citing a
bookmarked paper, weighted by the bookmarked paper's truth-value score times
a propagation decay factor. -/
def propagationCandidates (cfg : ScoringConfig) (s : GraphStore) (now : Int)
    (sig : UserSignals) : List (Nat × ℚ × RecReason) :=
  sig.bookmarks.flatMap (fun b =>
    (incomingCitations s b).map (fun c =>
      (c, truthScoreOf cfg s now b * ((1 : ℚ) / 2), RecReason.citationPropagation)))

/-- Modelled from the spec: merged weight of a candidate id — the sum of the
weights contributed by all sources. -/
def mergedWeight (cands : List (Nat × ℚ × RecReason)) (pid : Nat) : ℚ :=
  ((cands.filter (fun c => c.1 == pid)).map (fun c => c.2.1)).sum

/-- Modelled from the spec: the single highest-weighted contributing reason
tag of a candidate id. -/
def bestReason (cands : List (Nat × ℚ × RecReason)) (pid : Nat) : RecReason :=
  ((cands.filter (fun c => c.1 == pid)).foldl
    (fun acc c =>
      match acc with
      | none => some (c.2.1, c.2.2)
      | some wr => if wr.1 < c.2.1 then some (c.2.1, c.2.2) else some wr)
    none).elim RecReason.trending (fun wr => wr.2)

/-- Modelled from the spec: `recommend(userSignals, limit)` — the trending
fallback for an empty signal set; otherwise the three candidate sources are
merged by paper id, already-bookmarked papers are excluded, each candidate's
final score is its merged weight times its truth-value score, and the output
is sorted score-descending with ties by id ascending, truncated to `limit`
(default 20).  The function is total: it never fails. -/
def recommend (cfg : ScoringConfig) (s : GraphStore) (now : Int)
    (sig : UserSignals) (limit : Nat := 20) : List RecommendationResult :=
  if hasNoSignals sig then trendingFallback cfg s now limit
  else
    let cands := contentCandidates cfg s now sig ++ authorCandidates s now sig
      ++ propagationCandidates cfg s now sig
    let ids := ((cands.map (fun c => c.1)).dedup).filter
      (fun i => !(decide (i ∈ sig.bookmarks)))
    let results := ids.map (fun i =>
      RecommendationResult.mk i (mergedWeight cands i * truthScoreOf cfg s now i)
        (bestReason cands i))
    (results.insertionSort
      (rankLex (fun r => r.relevance) (fun _ => 0) (fun r => r.paperId))).take limit

/-- Modelled from the spec: the state of the per-key single-flight guard for
score recomputation — the published cache, the stale set, the set of paper
ids with a recomputation in flight, the callers waiting per id, a counter of
recomputations started, and the values delivered to callers. -/
structure FlightState where
  cachedScore : List (Nat × ℚ)
  staleSet : List Nat
  inFlight : List Nat
  waiters : List (Nat × Nat)
  recomputations : Nat
  delivered : List (Nat × ℚ)
deriving Repr, DecidableEq

/-- Modelled from the spec: events of the single-flight interleaving model —
a caller's `getTruthValue` request arriving, and a recomputation for a paper
id completing with a value. -/
inductive FlightEvent
  | request (caller : Nat) (pid : Nat)
  | finish (pid : Nat) (value : ℚ)
deriving Repr, DecidableEq

/-- Modelled from the spec: cache lookup in the single-flight model. -/
def scoreLookup (cache : List (Nat × ℚ)) (pid : Nat) : Option ℚ :=
  (cache.find? (fun e => e.1 == pid)).map (fun e => e.2)

/-- Modelled from the spec: one step of the single-flight guard.  A request
for a fresh cached id is answered from the cache; a request for a stale or
missing id either starts a recomputation (when none is in flight for that id)
or joins the waiters of the in-flight one; a completing recomputation
publishes its value, clears the in-flight mark and delivers the value to
every waiter of that id. -/
def flightStep (st : FlightState) : FlightEvent → FlightState
  | .request c pid =>
    if pid ∈ st.staleSet ∨ scoreLookup st.cachedScore pid = none then
      if pid ∈ st.inFlight then
        { st with waiters := st.waiters ++ [(c, pid)] }
      else
        { st with
          inFlight := pid :: st.inFlight,
          recomputations := st.recomputations + 1,
          waiters := st.waiters ++ [(c, pid)] }
    else
      { st with
        delivered := st.delivered ++ [(c, (scoreLookup st.cachedScore pid).getD 0)] }
  | .finish pid v =>
    { st with
      cachedScore := (pid, v) :: st.cachedScore.filter (fun e => e.1 != pid),
      staleSet := st.staleSet.erase pid,
      inFlight := st.inFlight.erase pid,
      delivered := st.delivered ++ (st.waiters.filter (fun w => w.2 == pid)).map
        (fun w => (w.1, v)),
      waiters := st.waiters.filter (fun w => w.2 != pid) }

/-- Modelled from the spec: running the single-flight guard over a sequence
of interleaved events. -/
def flightRun (st : FlightState) (evs : List FlightEvent) : FlightState :=
  evs.foldl flightStep st

/-! Frontend user store, translated from src/frontend/src/stores/user.ts. -/

/-- User record of the frontend store (fields relevant to the embedded
getters). -/
structure FrontUser where
  uid : String
  username : String
  email : String
  full_name : String
  research_interests : List String
deriving Repr, DecidableEq

/-- State of the pinia user store: `user`, `token`, `loading`, `error`. -/
structure AuthState where
  user : Option FrontUser
  token : Option String
  loading : Bool
  errorMsg : Option String
deriving Repr, DecidableEq

/-- Getter `isAuthenticated`: `!!token.value && !!user.value`. -/
def isAuthenticated (st : AuthState) : Bool :=
  st.token.isSome && st.user.isSome

/-- Action `setToken`: stores the new token (the localStorage mirror is
outside the model). -/
def setToken (st : AuthState) (t : String) : AuthState :=
  { st with token := some t }

/-- Action `clearToken`: drops the token. -/
def clearToken (st : AuthState) : AuthState :=
  { st with token := none }

/-- Action `setUser`: stores the user record. -/
def setUser (st : AuthState) (u : FrontUser) : AuthState :=
  { st with user := some u }

/-- Action `clearUser`: drops the user record. -/
def clearUser (st : AuthState) : AuthState :=
  { st with user := none }

/-- Action `logout`: `clearToken(); clearUser(); error.value = null`. -/
def logout (st : AuthState) : AuthState :=
  { clearUser (clearToken st) with errorMsg := none }

/-- JS `' '`-split of a character list: `"".split(' ')` is `[""]`, and
consecutive separators produce empty words. -/
def splitOnSpace : List Char → List (List Char)
  | [] => [[]]
  | c :: cs =>
    if c = ' ' then [] :: splitOnSpace cs
    else
      match splitOnSpace cs with
      | [] => [[c]]
      | w :: ws => (c :: w) :: ws

/-- JS `word[0]` as used under `.join('')`: the first character of a word,
or nothing for an empty word (JS yields `undefined`, which `join` renders as
the empty string). -/
def headChars : List Char → List Char
  | [] => []
  | c :: _ => [c]

/-- ASCII uppercasing of one character, the per-character model of JS
`toUpperCase` on the names handled here. -/
def upChar (c : Char) : Char :=
  if 97 ≤ c.toNat ∧ c.toNat ≤ 122 then Char.ofNat (c.toNat - 32) else c

/-- The `userInitials` computation for a loaded user, from user.ts:
`full_name.split(' ').map(name => name[0]).join('').toUpperCase().slice(0, 2)`. -/
def initialsOfName (name : String) : List Char :=
  ((((splitOnSpace name.data).map headChars).flatten).map upChar).take 2

/-- Getter `userInitials` of the user store: `'U'` when no user is loaded,
otherwise the initials of `full_name`. -/
def userInitials (user : Option FrontUser) : String :=
  match user with
  | none => "U"
  | some u => String.mk (initialsOfName u.full_name)

/-- Initials as described by the specification sentence: the concatenated
uppercased first characters of the space-separated words of the full name,
truncated to two characters.  Stated separately so the store's computation
can be proved to refine it. -/
def claimedInitials (name : String) : List Char :=
  (((splitOnSpace name.data).map (fun w => (headChars w).map upChar)).flatten).take 2

/-- Store actions, with the asynchronous ones parameterised by the outcome
of the awaited API call.  Success of `login`/`register` stores the token and
then fetches the profile; failure records the error message.  A failing
`fetchProfile` records the error and then calls `logout`. -/
inductive AuthAction
  | doSetToken (t : String)
  | doClearToken
  | doSetUser (u : FrontUser)
  | doClearUser
  | doLogout
  | loginOk (tok : String) (u : FrontUser)
  | loginFail (msg : String)
  | registerOk (tok : String) (u : FrontUser)
  | registerFail (msg : String)
  | fetchProfileOk (u : FrontUser)
  | fetchProfileFail (msg : String)
  | updateProfileOk (u : FrontUser)
  | updateProfileFail (msg : String)
  | changePasswordOk
  | changePasswordFail (msg : String)
deriving Repr, DecidableEq

/-- Effect of one store action on the store state, following the action
bodies in user.ts. -/
def applyAction (st : AuthState) : AuthAction → AuthState
  | .doSetToken t => setToken st t
  | .doClearToken => clearToken st
  | .doSetUser u => setUser st u
  | .doClearUser => clearUser st
  | .doLogout => logout st
  | .loginOk tok u =>
    { setUser (setToken st tok) u with loading := false, errorMsg := none }
  | .loginFail msg => { st with loading := false, errorMsg := some msg }
  | .registerOk tok u =>
    { setUser (setToken st tok) u with loading := false, errorMsg := none }
  | .registerFail msg => { st with loading := false, errorMsg := some msg }
  | .fetchProfileOk u => setUser st u
  | .fetchProfileFail msg => logout { st with errorMsg := some msg }
  | .updateProfileOk u =>
    { setUser st u with loading := false, errorMsg := none }
  | .updateProfileFail msg => { st with loading := false, errorMsg := some msg }
  | .changePasswordOk => { st with loading := false, errorMsg := none }
  | .changePasswordFail msg => { st with loading := false, errorMsg := some msg }

/-- Running a sequence of store actions from a state. -/
def runActions (st : AuthState) (acts : List AuthAction) : AuthState :=
  acts.foldl applyAction st

/-! Helper lemmas. -/

theorem clamp10_nonneg (x : ℚ) : 0 ≤ clamp10 x :=
  le_max_left 0 _

theorem clamp10_le_ten (x : ℚ) : clamp10 x ≤ 10 :=
  max_le (by norm_num) (min_le_left _ _)

theorem citationNorm_nonneg (s : GraphStore) (p : Paper) : 0 ≤ citationNorm s p := by
  unfold citationNorm
  split
  · exact le_refl 0
  · exact clamp10_nonneg _

theorem citationNorm_le_ten (s : GraphStore) (p : Paper) : citationNorm s p ≤ 10 := by
  unfold citationNorm
  split
  · norm_num
  · exact clamp10_le_ten _

theorem recencyFactor_nonneg (cfg : ScoringConfig) (now : Int) (p : Paper)
    (h : 0 ≤ cfg.recencyHalfLife) : 0 ≤ recencyFactor cfg now p :=
  pow_nonneg h _

theorem recencyFactor_le_one (cfg : ScoringConfig) (now : Int) (p : Paper)
    (h0 : 0 ≤ cfg.recencyHalfLife) (h1 : cfg.recencyHalfLife ≤ 1) :
    recencyFactor cfg now p ≤ 1 :=
  pow_le_one₀ h0 h1

theorem fullScore_in_range (cfg : ScoringConfig) (s : GraphStore) (now : Int)
    (p : Paper) (hcfg : cfg.Valid) :
    0 ≤ fullScore cfg s now p ∧ fullScore cfg s now p ≤ 10 := by
  obtain ⟨h1, h2, h3, h4, h5, h6, h7, h8, h9⟩ := hcfg
  unfold fullScore
  set c1 := clamp10 (recencyFactor cfg now p * citationNorm s p) with hc1
  set c2 := venueNorm p with hc2
  set c3 := centralityNorm s p with hc3
  have hc1b : 0 ≤ c1 ∧ c1 ≤ 10 := ⟨clamp10_nonneg _, clamp10_le_ten _⟩
  have hc2b : 0 ≤ c2 ∧ c2 ≤ 10 := ⟨clamp10_nonneg _, clamp10_le_ten _⟩
  have hc3b : 0 ≤ c3 ∧ c3 ≤ 10 := ⟨clamp10_nonneg _, clamp10_le_ten _⟩
  constructor
  · apply div_nonneg _ (le_of_lt h9)
    have := mul_nonneg h1 hc1b.1
    have := mul_nonneg h3 hc2b.1
    have := mul_nonneg h5 hc3b.1
    linarith
  · rw [div_le_iff₀ h9]
    have e1 : cfg.citationWeight * c1 ≤ cfg.citationWeight * 10 :=
      mul_le_mul_of_nonneg_left hc1b.2 h1
    have e2 : cfg.venueWeight * c2 ≤ cfg.venueWeight * 10 :=
      mul_le_mul_of_nonneg_left hc2b.2 h3
    have e3 : cfg.centralityWeight * c3 ≤ cfg.centralityWeight * 10 :=
      mul_le_mul_of_nonneg_left hc3b.2 h5
    nlinarith

theorem baselineScore_in_range (p : Paper) :
    0 ≤ baselineScore p ∧ baselineScore p ≤ 10 :=
  ⟨clamp10_nonneg _, clamp10_le_ten _⟩

/-! Claim theorems. -/

/-- C1: for every paper known to the system (every id on which
`getTruthValue` succeeds), under a valid scoring configuration the returned
score lies in the closed interval [0, 10] — on both the full-score path and
the low-confidence baseline path. -/
theorem truth_value_score_in_range (cfg : ScoringConfig) (s : GraphStore)
    (now : Int) (pid : Nat) (tv : TruthValue) (hcfg : cfg.Valid)
    (h : getTruthValue cfg s now pid = Except.ok tv) :
    0 ≤ tv.score ∧ tv.score ≤ 10 := by
  cases hfp : findPaper s pid with
  | none => simp [getTruthValue, hfp] at h
  | some p =>
    by_cases hs : isSparse s p = true
    · have he : getTruthValue cfg s now pid =
          Except.ok { score := baselineScore p, confidence := "low", asOf := now } := by
        simp [getTruthValue, hfp, scoreStrict, hs]
      rw [h] at he
      injection he with he2
      subst he2
      exact baselineScore_in_range p
    · have he : getTruthValue cfg s now pid =
          Except.ok { score := fullScore cfg s now p, confidence := "high", asOf := now } := by
        simp [getTruthValue, hfp, scoreStrict, hs]
      rw [h] at he
      injection he with he2
      subst he2
      exact fullScore_in_range cfg s now p hcfg

/-- Concrete configuration used by the witnesses: all weights 1, half-life
1. -/
def cfgW : ScoringConfig := ⟨1, 1, 1, 1⟩

/-- Concrete sparse paper used by the witnesses. -/
def paperW : Paper := ⟨1, "w", [], 2024, 7, 0, []⟩

/-- Concrete one-paper store used by the witnesses. -/
def storeW : GraphStore := ⟨[paperW], [], []⟩

/-- Witness for C1 at a concrete store: the configuration is valid,
`getTruthValue` succeeds, and the theorem bounds its score. -/
theorem truth_value_score_in_range_witness :
    0 ≤ (TruthValue.mk (baselineScore paperW) "low" 2025).score ∧
    (TruthValue.mk (baselineScore paperW) "low" 2025).score ≤ 10 :=
  truth_value_score_in_range cfgW storeW 2025 1
    (TruthValue.mk (baselineScore paperW) "low" 2025)
    (by norm_num [ScoringConfig.Valid, cfgW])
    (by decide)

/-- C7: for a paper with zero outgoing edges, zero incoming edges and zero
raw citation count, `getTruthValue` does not raise: the insufficient-data
condition is recovered locally into the metadata-only baseline score and the
returned confidence is "low". -/
theorem sparse_paper_low_confidence (cfg : ScoringConfig) (s : GraphStore)
    (now : Int) (pid : Nat) (p : Paper)
    (hfp : findPaper s pid = some p)
    (hout : outgoingCitations s p.pid = [])
    (hin : incomingCitations s p.pid = [])
    (hraw : p.rawCitations = 0) :
    getTruthValue cfg s now pid =
      Except.ok { score := baselineScore p, confidence := "low", asOf := now } := by
  have hs : isSparse s p = true := by
    simp [isSparse, hout, hin, hraw]
  simp [getTruthValue, hfp, scoreStrict, hs]

/-- Witness for C7 at the concrete sparse paper. -/
theorem sparse_paper_low_confidence_witness :
    getTruthValue cfgW storeW 2025 1 =
      Except.ok { score := baselineScore paperW, confidence := "low", asOf := 2025 } :=
  sparse_paper_low_confidence cfgW storeW 2025 1 paperW
    (by decide) (by decide) (by decide) (by decide)

theorem upChar_idem (c : Char) : upChar (upChar c) = upChar c := by
  unfold upChar
  by_cases h : 97 ≤ c.toNat ∧ c.toNat ≤ 122
  · rw [if_pos h]
    obtain ⟨h1, h2⟩ := h
    interval_cases h3 : c.toNat <;> decide
  · rw [if_neg h, if_neg h]

theorem initialsOfName_eq_claimed (name : String) :
    initialsOfName name = claimedInitials name := by
  unfold initialsOfName claimedInitials
  rw [List.map_flatten, List.map_map]
  rfl

/-- C9: the derived value `userInitials` is a string of length at most two
whose characters are all in uppercase form (fixed by `upChar`); it is "U"
when no user is loaded, otherwise it equals the concatenated uppercased
first characters of the space-separated words of `full_name` truncated to
two characters, and in particular it is the empty string (not an error) when
`full_name` is empty. -/
theorem user_initials_spec (user : Option FrontUser) :
    (userInitials user).data.length ≤ 2 ∧
    (∀ c ∈ (userInitials user).data, upChar c = c) ∧
    (user = none → userInitials user = "U") ∧
    (∀ u, user = some u → (userInitials user).data = claimedInitials u.full_name) ∧
    (∀ u, user = some u → u.full_name = "" → userInitials user = "") := by
  cases user with
  | none =>
    refine ⟨by decide, ?_, fun _ => rfl, ?_, ?_⟩
    · intro c hc
      have : c = 'U' := by simpa [userInitials] using hc
      subst this
      decide
    · intro u hu; cases hu
    · intro u hu; cases hu
  | some u =>
    refine ⟨?_, ?_, ?_, ?_, ?_⟩
    · show (initialsOfName u.full_name).length ≤ 2
      unfold initialsOfName
      rw [List.length_take]
      exact min_le_left _ _
    · intro c hc
      have hc2 : c ∈ (((splitOnSpace u.full_name.data).map headChars).flatten).map upChar := by
        have := List.take_subset 2
          ((((splitOnSpace u.full_name.data).map headChars).flatten).map upChar)
        exact this hc
      obtain ⟨x, _, rfl⟩ := List.mem_map.mp hc2
      exact upChar_idem x
    · intro hu; cases hu
    · intro v hv
      injection hv with hv2
      subst hv2
      exact initialsOfName_eq_claimed u.full_name
    · intro v hv hname
      injection hv with hv2
      subst hv2
      show String.mk (initialsOfName u.full_name) = ""
      rw [hname]
      rfl

/-- Concrete user for the C9 witness. -/
def userW : FrontUser := ⟨"1", "jy", "jy@example.org", "jie yu", []⟩

/-- Witness for C9: at a concrete loaded user the store computation agrees
with the spec description, and it concretely evaluates to "JY". -/
theorem user_initials_spec_witness :
    (userInitials (some userW)).data = claimedInitials userW.full_name ∧
    userInitials (some userW) = "JY" :=
  ⟨(user_initials_spec (some userW)).2.2.2.1 userW rfl, by decide⟩

/-- C10: `isAuthenticated` holds only when both the token and the user are
non-null, and after every sequence of store actions ending in `logout`
(which clears the token, the user and the error field) `isAuthenticated` is
false. -/
theorem logout_invariant :
    (∀ st : AuthState, isAuthenticated st = true → st.token ≠ none ∧ st.user ≠ none) ∧
    (∀ (st : AuthState) (acts : List AuthAction),
      isAuthenticated (runActions st (acts ++ [AuthAction.doLogout])) = false) := by
  constructor
  · intro st h
    unfold isAuthenticated at h
    rw [Bool.and_eq_true] at h
    exact ⟨Option.isSome_iff_ne_none.mp h.1, Option.isSome_iff_ne_none.mp h.2⟩
  · intro st acts
    unfold runActions
    rw [List.foldl_append]
    simp [applyAction, logout, clearToken, clearUser, isAuthenticated]

/-- Witness for C10 at a concrete authenticated state and a concrete action
sequence ending in logout. -/
theorem logout_invariant_witness :
    (AuthState.mk (some userW) (some "tok") false none).token ≠ none ∧
    isAuthenticated (runActions (AuthState.mk (some userW) (some "tok") false none)
      ([AuthAction.doSetToken "t2", AuthAction.fetchProfileOk userW] ++
        [AuthAction.doLogout])) = false :=
  ⟨(logout_invariant.1 (AuthState.mk (some userW) (some "tok") false none)
      (by decide)).1,
    logout_invariant.2 (AuthState.mk (some userW) (some "tok") false none)
      [AuthAction.doSetToken "t2", AuthAction.fetchProfileOk userW]⟩

theorem addCitationEdge_of_mem (s : GraphStore) (a b : Nat)
    (h : (a, b) ∈ s.citationEdges) : addCitationEdge s a b = s := by
  unfold addCitationEdge
  rw [if_pos (Or.inr h)]

theorem addCitationEdge_edges_of_not_mem (s : GraphStore) (a b : Nat)
    (hab : a ≠ b) (h : (a, b) ∉ s.citationEdges) :
    (addCitationEdge s a b).citationEdges = s.citationEdges ++ [(a, b)] := by
  unfold addCitationEdge
  rw [if_neg (by simp [hab, h])]

/-- C6: `addCitationEdge` is idempotent — for distinct paper ids, adding the
same edge twice leaves the store exactly as adding it once, exactly one
(a, b) edge exists afterwards, and derived metrics (citation count,
centrality) are unaffected by the second call. -/
theorem add_citation_edge_idempotent (s : GraphStore) (a b : Nat) (p : Paper)
    (hab : a ≠ b) (hnd : s.citationEdges.Nodup) :
    addCitationEdge (addCitationEdge s a b) a b = addCitationEdge s a b ∧
    ((addCitationEdge s a b).citationEdges.filter (fun e => e == (a, b))).length = 1 ∧
    citationCountOf (addCitationEdge (addCitationEdge s a b) a b) b =
      citationCountOf (addCitationEdge s a b) b ∧
    centralityNorm (addCitationEdge (addCitationEdge s a b) a b) p =
      centralityNorm (addCitationEdge s a b) p := by
  have hidem : addCitationEdge (addCitationEdge s a b) a b = addCitationEdge s a b := by
    by_cases hmem : (a, b) ∈ s.citationEdges
    · have h1 := addCitationEdge_of_mem s a b hmem
      rw [h1]
      exact h1
    · refine addCitationEdge_of_mem _ a b ?_
      rw [addCitationEdge_edges_of_not_mem s a b hab hmem]
      simp
  have hfilter : ∀ l : List (Nat × Nat), l.Nodup → (a, b) ∈ l →
      (l.filter (fun e => e == (a, b))).length = 1 := by
    intro l
    induction l with
    | nil => intro _ h; cases h
    | cons x t ih =>
      intro hnodup hmem2
      rcases List.mem_cons.mp hmem2 with rfl | hm
      · have hxt : (a, b) ∉ t := (List.nodup_cons.mp hnodup).1
        have : t.filter (fun e => e == (a, b)) = [] := by
          rw [List.filter_eq_nil_iff]
          intro e he
          simp only [beq_iff_eq]
          intro hh
          exact hxt (hh ▸ he)
        simp [List.filter_cons, this]
      · have hxne : x ≠ (a, b) := by
          rintro rfl
          exact (List.nodup_cons.mp hnodup).1 hm
        have := ih (List.nodup_cons.mp hnodup).2 hm
        simp [List.filter_cons, hxne, this]
  have hcount : ((addCitationEdge s a b).citationEdges.filter
      (fun e => e == (a, b))).length = 1 := by
    by_cases hmem : (a, b) ∈ s.citationEdges
    · rw [addCitationEdge_of_mem s a b hmem]
      exact hfilter _ hnd hmem
    · have hnd2 : (addCitationEdge s a b).citationEdges.Nodup := by
        rw [addCitationEdge_edges_of_not_mem s a b hab hmem]
        exact List.Nodup.append hnd (List.nodup_singleton _)
          (by intro x hx hx2; simp at hx2; subst hx2; exact hmem hx)
      refine hfilter _ hnd2 ?_
      rw [addCitationEdge_edges_of_not_mem s a b hab hmem]
      simp
  exact ⟨hidem, hcount, by rw [hidem], by rw [hidem]⟩

/-- Concrete empty store for the C6 witness. -/
def storeE : GraphStore := ⟨[], [], []⟩

/-- Witness for C6 at the concrete empty store and the edge (1, 2). -/
theorem add_citation_edge_idempotent_witness :
    addCitationEdge (addCitationEdge storeE 1 2) 1 2 = addCitationEdge storeE 1 2 ∧
    ((addCitationEdge storeE 1 2).citationEdges.filter (fun e => e == (1, 2))).length = 1 :=
  ⟨(add_citation_edge_idempotent storeE 1 2 paperW (by decide) (by decide)).1,
    (add_citation_edge_idempotent storeE 1 2 paperW (by decide) (by decide)).2.1⟩

/-- C8: the single-flight guard, modelled as an interleaving state machine —
when two requests for the same stale paper id arrive while no recomputation
for it is in flight, exactly one recomputation is started (the counter
increases by one), and on completion both callers are delivered the one
computed value. -/
theorem single_flight_dedup (st : FlightState) (c1 c2 pid : Nat) (v : ℚ)
    (hstale : pid ∈ st.staleSet) (hnif : pid ∉ st.inFlight) :
    (flightRun st [FlightEvent.request c1 pid, FlightEvent.request c2 pid,
        FlightEvent.finish pid v]).recomputations = st.recomputations + 1 ∧
    (c1, v) ∈ (flightRun st [FlightEvent.request c1 pid, FlightEvent.request c2 pid,
        FlightEvent.finish pid v]).delivered ∧
    (c2, v) ∈ (flightRun st [FlightEvent.request c1 pid, FlightEvent.request c2 pid,
        FlightEvent.finish pid v]).delivered := by
  have h1 : flightStep st (FlightEvent.request c1 pid) =
      { st with
        inFlight := pid :: st.inFlight,
        recomputations := st.recomputations + 1,
        waiters := st.waiters ++ [(c1, pid)] } := by
    simp [flightStep, hstale, hnif]
  have h2 : flightStep (flightStep st (FlightEvent.request c1 pid))
      (FlightEvent.request c2 pid) =
      { st with
        inFlight := pid :: st.inFlight,
        recomputations := st.recomputations + 1,
        waiters := (st.waiters ++ [(c1, pid)]) ++ [(c2, pid)] } := by
    rw [h1]
    simp [flightStep, hstale]
  have h3 : flightRun st [FlightEvent.request c1 pid, FlightEvent.request c2 pid,
      FlightEvent.finish pid v] =
      flightStep ({ st with
        inFlight := pid :: st.inFlight,
        recomputations := st.recomputations + 1,
        waiters := (st.waiters ++ [(c1, pid)]) ++ [(c2, pid)] })
        (FlightEvent.finish pid v) := by
    simp only [flightRun, List.foldl_cons, List.foldl_nil, h2]
  rw [h3]
  refine ⟨rfl, ?_, ?_⟩ <;> simp [flightStep]

/-- Concrete guard state for the C8 witness: paper 7 is stale and not in
flight. -/
def flightW : FlightState := ⟨[], [7], [], [], 0, []⟩

/-- Witness for C8: running the two concurrent requests and the completion
from the concrete state performs exactly one recomputation and delivers the
value to both callers. -/
theorem single_flight_dedup_witness :
    (flightRun flightW [FlightEvent.request 1 7, FlightEvent.request 2 7,
        FlightEvent.finish 7 5]).recomputations = flightW.recomputations + 1 ∧
    (1, (5 : ℚ)) ∈ (flightRun flightW [FlightEvent.request 1 7, FlightEvent.request 2 7,
        FlightEvent.finish 7 5]).delivered ∧
    (2, (5 : ℚ)) ∈ (flightRun flightW [FlightEvent.request 1 7, FlightEvent.request 2 7,
        FlightEvent.finish 7 5]).delivered :=
  single_flight_dedup flightW 1 2 7 5 (by decide) (by decide)

/-- C4: every query operation fails with `NotFoundError` exactly on an
unknown id — and on a known id none of them fails for any other reason
(each is modelled as a pure read, leaving the store unchanged). -/
theorem query_not_found_spec (cfg : ScoringConfig) (s : GraphStore) (now : Int)
    (pid : Nat) (k d : Nat) :
    (findPaper s pid = none →
      getTruthValue cfg s now pid = Except.error EngineError.notFound ∧
      getReferences s pid = Except.error EngineError.notFound ∧
      getCitations s pid = Except.error EngineError.notFound ∧
      getSimilar cfg s now pid k = Except.error EngineError.notFound ∧
      getGraph s pid d = Except.error EngineError.notFound) ∧
    (∀ p, findPaper s pid = some p →
      (∃ v, getTruthValue cfg s now pid = Except.ok v) ∧
      (∃ v, getReferences s pid = Except.ok v) ∧
      (∃ v, getCitations s pid = Except.ok v) ∧
      (∃ v, getSimilar cfg s now pid k = Except.ok v) ∧
      (∃ v, getGraph s pid d = Except.ok v)) := by
  constructor
  · intro h
    refine ⟨?_, ?_, ?_, ?_, ?_⟩ <;>
      simp [getTruthValue, getReferences, getCitations, getSimilar, getGraph, h]
  · intro p hp
    refine ⟨?_, ?_, ?_, ?_, ?_⟩
    · cases he : getTruthValue cfg s now pid with
      | error er =>
        cases hss : scoreStrict cfg s now p with
        | error e2 => simp [getTruthValue, hp, hss] at he
        | ok v => simp [getTruthValue, hp, hss] at he
      | ok v => exact ⟨v, rfl⟩
    · cases he : getReferences s pid with
      | error er => simp [getReferences, hp] at he
      | ok v => exact ⟨v, rfl⟩
    · cases he : getCitations s pid with
      | error er => simp [getCitations, hp] at he
      | ok v => exact ⟨v, rfl⟩
    · cases he : getSimilar cfg s now pid k with
      | error er => simp [getSimilar, hp] at he
      | ok v => exact ⟨v, rfl⟩
    · cases he : getGraph s pid d with
      | error er => simp [getGraph, hp] at he
      | ok v => exact ⟨v, rfl⟩

/-- Witness for C4 at the concrete one-paper store: id 99 is unknown and
every query rejects it with `NotFoundError`; id 1 is known and
`getTruthValue` succeeds. -/
theorem query_not_found_spec_witness :
    getTruthValue cfgW storeW 2025 99 = Except.error EngineError.notFound ∧
    getGraph storeW 99 2 = Except.error EngineError.notFound ∧
    getTruthValue cfgW storeW 2025 1 = Except.ok
      { score := baselineScore paperW, confidence := "low", asOf := 2025 } :=
  ⟨((query_not_found_spec cfgW storeW 2025 99 10 2).1 (by decide)).1,
    ((query_not_found_spec cfgW storeW 2025 99 10 2).1 (by decide)).2.2.2.2,
    by decide⟩

theorem bfsExpand_nodup_mem (s : GraphStore) :
    ∀ (d : Nat) (frontier visited : List Nat), visited.Nodup →
      (∀ x ∈ visited, x ∈ paperIds s) →
      (bfsExpand s d frontier visited).Nodup ∧
      (∀ x ∈ bfsExpand s d frontier visited, x ∈ paperIds s) := by
  intro d
  induction d with
  | zero => intro f v h1 h2; exact ⟨h1, h2⟩
  | succ d ih =>
    intro f v h1 h2
    show (bfsExpand s d (newFrontier s f v) (v ++ newFrontier s f v)).Nodup ∧ _
    apply ih
    · apply List.Nodup.append h1 (List.nodup_dedup _)
      intro x hxv hxn
      have hx := (List.mem_filter.mp (List.mem_dedup.mp hxn)).2
      simp only [Bool.and_eq_true, Bool.not_eq_eq_eq_not, Bool.not_true,
        decide_eq_true_eq, decide_eq_false_iff_not] at hx
      exact hx.2 hxv
    · intro x hx
      rcases List.mem_append.mp hx with hx | hx
      · exact h2 x hx
      · have hx2 := (List.mem_filter.mp (List.mem_dedup.mp hx)).2
        simp only [Bool.and_eq_true, decide_eq_true_eq] at hx2
        exact hx2.1

theorem nodup_subset_length_le {l l2 : List Nat} (h1 : l.Nodup)
    (h2 : ∀ x ∈ l, x ∈ l2) : l.length ≤ l2.length := by
  calc l.length = l.toFinset.card := (List.toFinset_card_of_nodup h1).symm
    _ ≤ l2.toFinset.card := Finset.card_le_card (fun x hx =>
        List.mem_toFinset.mpr (h2 x (List.mem_toFinset.mp hx)))
    _ ≤ l2.length := List.toFinset_card_le _

/-- C5: for a node present in the graph, the bounded BFS export terminates
(it is a total function, with no acyclicity hypothesis) and returns a node
list without duplicates whose size is at most the number of nodes in the
graph. -/
theorem graph_export_bounded (s : GraphStore) (pid : Nat) (d : Nat)
    (nodes : List Nat)
    (h : getGraph s pid d = Except.ok nodes) :
    nodes.Nodup ∧ nodes.length ≤ s.papers.length := by
  cases hfp : findPaper s pid with
  | none => simp [getGraph, hfp] at h
  | some p =>
    have hmem : pid ∈ paperIds s := by
      have h1 := List.mem_of_find?_eq_some hfp
      have h3 : p.pid = pid := by simpa using List.find?_some hfp
      rw [← h3]
      exact List.mem_map_of_mem _ h1
    have hnodes : nodes = bfsExpand s (clampDepth d) [pid] [pid] := by
      have he : getGraph s pid d =
          Except.ok (bfsExpand s (clampDepth d) [pid] [pid]) := by
        simp [getGraph, hfp]
      exact Except.ok.inj (h.symm.trans he)
    subst hnodes
    have hinv := bfsExpand_nodup_mem s (clampDepth d) [pid] [pid]
      (List.nodup_singleton _)
      (by intro x hx; rw [List.mem_singleton] at hx; subst hx; exact hmem)
    refine ⟨hinv.1, ?_⟩
    have hlen := nodup_subset_length_le hinv.1 hinv.2
    simpa [paperIds] using hlen

/-- Concrete store with a citation cycle through node 1, for the C5
witness. -/
def storeC5 : GraphStore :=
  ⟨[⟨1, "a", [], 2024, 0, 0, []⟩, ⟨2, "b", [], 2024, 0, 0, []⟩],
    [(1, 2), (2, 1)], []⟩

/-- Witness for C5: the BFS export from node 1 of the two-node cyclic store
at depth 3 yields the duplicate-free node set of size two. -/
theorem graph_export_bounded_witness :
    ([1, 2] : List Nat).Nodup ∧ ([1, 2] : List Nat).length ≤ storeC5.papers.length :=
  graph_export_bounded storeC5 1 3 [1, 2] (by decide)

/-- C3: the similar-paper list never contains the target paper, has length
at most k (with 10 the default when k is not supplied), and is sorted
descending by similarity score with ties broken by truth-value score and
then by paper id (the relation `rankLex`). -/
theorem similar_papers_spec (cfg : ScoringConfig) (s : GraphStore) (now : Int)
    (pid : Nat) (k : Nat) (p : Paper) (l : List Paper)
    (hfp : findPaper s pid = some p)
    (h : getSimilar cfg s now pid k = Except.ok l) :
    (∀ q ∈ l, q.pid ≠ pid) ∧
    l.length ≤ k ∧
    l.Sorted (rankLex (simScore s p) (fun q => truthScoreOf cfg s now q.pid)
      (fun q => q.pid)) ∧
    getSimilar cfg s now pid = getSimilar cfg s now pid 10 := by
  have hl : l = ((s.papers.filter (fun q => isSimilarCandidate s p q)).insertionSort
      (rankLex (simScore s p) (fun q => truthScoreOf cfg s now q.pid)
        (fun q => q.pid))).take k := by
    have he : getSimilar cfg s now pid k = Except.ok
        (((s.papers.filter (fun q => isSimilarCandidate s p q)).insertionSort
          (rankLex (simScore s p) (fun q => truthScoreOf cfg s now q.pid)
            (fun q => q.pid))).take k) := by
      simp [getSimilar, hfp]
    exact Except.ok.inj (h.symm.trans he)
  subst hl
  refine ⟨?_, ?_, ?_, rfl⟩
  · intro q hq
    have hq2 : q ∈ s.papers.filter (fun q => isSimilarCandidate s p q) :=
      (List.perm_insertionSort _ _).mem_iff.mp (List.take_subset k _ hq)
    have hc := (List.mem_filter.mp hq2).2
    unfold isSimilarCandidate at hc
    rw [Bool.and_eq_true] at hc
    have hne : q.pid ≠ p.pid := bne_iff_ne.mp hc.1
    have hpp : p.pid = pid := by simpa using List.find?_some hfp
    rw [hpp] at hne
    exact hne
  · rw [List.length_take]
    exact min_le_left _ _
  · exact List.Pairwise.sublist (List.take_sublist _ _)
      (List.sorted_insertionSort _ _)

/-- Concrete papers and store for the C3 witness: paper 2 shares two
keywords with paper 1, paper 3 shares none. -/
def paperS1 : Paper := ⟨1, "p1", ["a", "b"], 2024, 0, 0, []⟩

def paperS2 : Paper := ⟨2, "p2", ["a", "b"], 2024, 0, 0, []⟩

def paperS3 : Paper := ⟨3, "p3", ["z"], 2024, 0, 0, []⟩

def storeS : GraphStore := ⟨[paperS1, paperS2, paperS3], [], []⟩

/-- Witness for C3: `getSimilar` on paper 1 of the concrete store returns
exactly the keyword-sharing paper 2, which satisfies the bound and the
self-exclusion. -/
theorem similar_papers_spec_witness :
    ([paperS2] : List Paper).length ≤ 5 ∧ paperS2.pid ≠ 1 := by
  have hthm := similar_papers_spec cfgW storeS 2025 1 5 paperS1 [paperS2]
    (by decide) (by decide)
  exact ⟨hthm.2.1, hthm.1 paperS2 (by decide)⟩

/-- C2 counterexample: with `limit = 0` the empty-signal call returns the
empty list even though trending papers exist, so the claim as stated (a
non-empty list whenever trending papers exist) fails at `limit = 0`. -/
def paperT : Paper := ⟨1, "t", [], 2025, 0, 1, []⟩

/-- Concrete one-trending-paper store for C2. -/
def storeT : GraphStore := ⟨[paperT], [], []⟩

/-- Empty signal set. -/
def sigEmpty : UserSignals := ⟨[], [], []⟩

/-- Counterexample for C2 as stated: at `limit = 0` the result is empty
although the signal set is empty and trending papers exist. -/
theorem recommend_limit_zero_counterexample :
    hasNoSignals sigEmpty = true ∧
    trendingPapers cfgW storeT 2025 ≠ [] ∧
    recommend cfgW storeT 2025 sigEmpty 0 = [] :=
  ⟨by decide, by decide, by decide⟩

/-- C2 (amended): a call with an empty signal set never fails (the function
is total) and returns the trending fallback — at most `limit` papers, a
non-empty list whenever trending papers exist and `limit ≥ 1`, sorted by
truth-value score descending. -/
theorem recommend_empty_signals (cfg : ScoringConfig) (s : GraphStore)
    (now : Int) (sig : UserSignals) (limit : Nat)
    (hsig : hasNoSignals sig = true) (hlim : 0 < limit) :
    recommend cfg s now sig limit = trendingFallback cfg s now limit ∧
    (recommend cfg s now sig limit).length ≤ limit ∧
    (trendingPapers cfg s now ≠ [] → recommend cfg s now sig limit ≠ []) ∧
    (recommend cfg s now sig limit).Sorted
      (fun r1 r2 => r2.relevance ≤ r1.relevance) := by
  have heq : recommend cfg s now sig limit = trendingFallback cfg s now limit := by
    unfold recommend
    rw [if_pos hsig]
  refine ⟨heq, ?_, ?_, ?_⟩
  · rw [heq]
    unfold trendingFallback
    rw [List.length_map, List.length_take]
    exact min_le_left _ _
  · intro ht
    rw [heq]
    unfold trendingFallback
    rw [Ne, List.map_eq_nil_iff, List.take_eq_nil_iff]
    push_neg
    exact ⟨hlim.ne', ht⟩
  · rw [heq]
    unfold trendingFallback
    rw [List.Sorted, List.pairwise_map]
    have hsorted : (trendingPapers cfg s now).Sorted
        (rankLex (fun p => truthScoreOf cfg s now p.pid) (fun _ => 0)
          (fun p => p.pid)) := by
      unfold trendingPapers
      exact List.sorted_insertionSort _ _
    have htake := List.Pairwise.sublist (List.take_sublist limit _) hsorted
    refine htake.imp ?_
    intro a b hr
    show truthScoreOf cfg s now b.pid ≤ truthScoreOf cfg s now a.pid
    rcases hr with hr | ⟨hr, _⟩
    · exact le_of_lt hr
    · exact le_of_eq hr.symm

/-- Witness for the amended C2: at the concrete trending store and
`limit = 1`, the result obeys the bound and is non-empty. -/
theorem recommend_empty_signals_witness :
    (recommend cfgW storeT 2025 sigEmpty 1).length ≤ 1 ∧
    recommend cfgW storeT 2025 sigEmpty 1 ≠ [] := by
  have hthm := recommend_empty_signals cfgW storeT 2025 sigEmpty 1
    (by decide) (by decide)
  exact ⟨hthm.2.1, hthm.2.2.1 (by decide)⟩

end ArticleRec
